import Mathlib

/-!
Shallow embedding of `convert_avi_to_mp4_cross_platform.py`, a batch
AVI-to-MP4 conversion script, together with proofs of its specified
properties.

File names are modelled as lists of characters and filesystem paths as a
directory-component list plus a name.  External tool invocations
(`mplayer`, `ffmpeg`) are modelled by an environment record describing,
for one input file, the observable behaviour of each subprocess call:
its exit code, whether it produced its output file and whether the call
raised an exception.  Byte sizes flow through the formatter as rationals
(Python's float divisions by 1024 are exact, so ℚ is a faithful model
for the values the program produces).
-/

namespace AviConv

/-- A filesystem path: directory components plus a file name.
Mirrors the `pathlib.Path` values the script manipulates. -/
structure PyPath where
  dir : List String
  name : List Char
deriving DecidableEq, Repr

/-- Does a file name match the glob pattern `*.[aA][vV][iI]` used at
`find_avi_files` (line 96)?  The pattern constrains exactly the last four
characters: a dot followed by one character from each bracket class;
the leading `*` matches any (possibly empty) run of characters. -/
def matchesAvi (name : List Char) : Bool :=
  match name.reverse with
  | c3 :: c2 :: c1 :: c0 :: _ =>
      c0 == '.' && (c1 == 'a' || c1 == 'A') && (c2 == 'v' || c2 == 'V')
        && (c3 == 'i' || c3 == 'I')
  | _ => false

/-- `find_avi_files` (lines 92-97): recursively collect every file in the
tree whose name matches `*.[aA][vV][iI]`.  The tree is modelled as the
list of all files below the root, each carrying its directory components,
so the recursive walk is the filter over that list. -/
def find_avi_files (tree : List PyPath) : List PyPath :=
  tree.filter (fun p => matchesAvi p.name)

/-- Index of the last `'.'` in a name, if any: Python's `name.rfind('.')`
as used by `pathlib` to split a name into stem and suffix. -/
def rfindDot (name : List Char) : Option Nat :=
  match name.reverse.findIdx? (· == '.') with
  | none => none
  | some j => some (name.length - 1 - j)

/-- `pathlib`'s `Path.suffix` on a file name: the part from the last dot
on, provided that dot is neither the first nor the last character;
otherwise empty. -/
def pySuffix (name : List Char) : List Char :=
  match rfindDot name with
  | some i => if 0 < i ∧ i < name.length - 1 then name.drop i else []
  | none => []

/-- `pathlib`'s `Path.stem` on a file name (source line 105,
`base_name = file_path.stem`): the name with its suffix removed. -/
def pyStem (name : List Char) : List Char :=
  match rfindDot name with
  | some i => if 0 < i ∧ i < name.length - 1 then name.take i else name
  | none => name

/-- `pathlib`'s `Path.with_suffix` on a file name (source line 106):
strip the existing suffix, if any, then append the new one. -/
def pyWithSuffix (name suffix : List Char) : List Char :=
  let old := pySuffix name
  (if old = [] then name else name.take (name.length - old.length)) ++ suffix

/-- Output path derivation (source line 106):
`output_mp4 = str(file_path.with_suffix('.mp4'))` — same directory as the
input, name with the suffix replaced by `.mp4`. -/
def output_mp4 (p : PyPath) : PyPath :=
  ⟨p.dir, pyWithSuffix p.name ['.', 'm', 'p', '4']⟩

/-- Intermediate-stream path derivation (source line 111):
`temp_h264 = os.path.join(temp_dir, f"{base_name}.h264")` — directly
inside the temporary directory, named after the input's stem. -/
def temp_h264 (tempDir : List String) (p : PyPath) : PyPath :=
  ⟨tempDir, pyStem p.name ++ ['.', 'h', '2', '6', '4']⟩

/-- Round a rational to the nearest integer, ties to even: the rounding
CPython's fixed-point float formatting applies to the (exactly
represented) quotients this program produces. -/
def halfEvenRound (q : ℚ) : ℤ :=
  let n := ⌊q⌋
  if q - n < 1/2 then n
  else if 1/2 < q - n then n + 1
  else if n % 2 = 0 then n else n + 1

/-- Render a nonnegative rational with exactly two decimal places, as
Python's fixed-point formatting with precision 2 does for the sizes
this program formats. -/
def renderFixed2 (q : ℚ) : String :=
  let c := (halfEvenRound (q * 100)).toNat
  toString (c / 100) ++ "." ++ (if c % 100 < 10 then "0" else "") ++ toString (c % 100)

/-- The unit loop of `format_file_size` (source lines 183-186): take the
current unit; if the value is below 1024 or the unit is the terminal
`"GB"`, render here; otherwise divide by 1024 and move to the next unit. -/
def fmtLoop : ℚ → List String → String
  | _, [] => ""
  | size, unit :: rest =>
    if size < 1024 ∨ unit = "GB" then renderFixed2 size ++ " " ++ unit
    else fmtLoop (size / 1024) rest

/-- `format_file_size` (source lines 181-186). Python's float divisions
by 1024 are exact (a power of two), so the rational model is faithful. -/
def format_file_size (size : ℚ) : String :=
  fmtLoop size ["B", "KB", "MB", "GB"]

/-- Observable behaviour of the external world for one conversion attempt:
for each of the two subprocess invocations, whether the call raises, its
exit code, and whether its output file exists afterwards; plus whether
`os.path.getsize` (step 3) or `os.remove` raises. -/
structure ConvEnv where
  aRaises : Bool
  aCode : ℤ
  aCreatesTemp : Bool
  bRaises : Bool
  bCode : ℤ
  bCreatesOut : Bool
  verifyRaises : Bool
  removeRaises : Bool
deriving DecidableEq, Repr

/-- Observable outcome of one conversion attempt: the returned flag,
whether tool B was ever invoked, and whether the output / original files
exist when the call returns (the original is assumed to exist before). -/
structure ConvOutcome where
  success : Bool
  invokedB : Bool
  outputExists : Bool
  originalExists : Bool
deriving DecidableEq, Repr

/-- `convert_avi_to_mp4` (source lines 100-178) as an `Except`
computation: a raised exception inside either try-block surfaces as
`Except.error` from the raw invocation and is caught by the matching
handler, which returns `False`; a result only escapes the function as
`Except.error` if an exception goes unhandled. -/
def convertRun (env : ConvEnv) (removeOriginal : Bool) : Except String ConvOutcome :=
  let runA : Except String (ℤ × Bool) :=
    if env.aRaises = true then Except.error "mplayer raised"
    else Except.ok (env.aCode, env.aCreatesTemp)
  match runA with
  | Except.error _ => Except.ok ⟨false, false, false, true⟩
  | Except.ok (aCode, tempMade) =>
    if ¬ aCode = 0 ∨ tempMade = false then Except.ok ⟨false, false, false, true⟩
    else
      let runB : Except String (ℤ × Bool) :=
        if env.bRaises = true then Except.error "ffmpeg raised"
        else Except.ok (env.bCode, env.bCreatesOut)
      match runB with
      | Except.error _ => Except.ok ⟨false, true, false, true⟩
      | Except.ok (bCode, outMade) =>
        if ¬ bCode = 0 ∨ outMade = false then Except.ok ⟨false, true, outMade, true⟩
        else
          if env.verifyRaises = true then Except.ok ⟨false, true, true, true⟩
          else if removeOriginal = true then
            if env.removeRaises = true then Except.ok ⟨false, true, true, true⟩
            else Except.ok ⟨true, true, true, false⟩
          else Except.ok ⟨true, true, true, true⟩

/-- The outcome of one conversion attempt as the orchestrator sees it. -/
def convert_avi_to_mp4 (env : ConvEnv) (removeOriginal : Bool) : ConvOutcome :=
  match convertRun env removeOriginal with
  | Except.ok o => o
  | Except.error _ => ⟨false, false, false, true⟩

/-- Failure of the extraction step (source line 128): the invocation
raised, exited non-zero, or left no intermediate file behind. -/
def toolAFails (env : ConvEnv) : Prop :=
  env.aRaises = true ∨ ¬ env.aCode = 0 ∨ env.aCreatesTemp = false

/-- Environment of one whole run of `main` (source lines 189-260):
whether the target directory exists, whether a required tool is missing,
the discovered files' per-file environments, and the deletion flag. -/
structure MainEnv where
  dirExists : Bool
  toolsMissing : Bool
  files : List ConvEnv
  removeFlag : Bool

/-- Observable outcome of `main`: exit code, whether the tool check ran,
whether the temporary workspace was created, the two counters and the
total the summary reports. -/
structure MainOutcome where
  exitCode : ℕ
  toolCheckPerformed : Bool
  tempDirCreated : Bool
  successful : ℕ
  failed : ℕ
  reportedTotal : ℕ
deriving DecidableEq, Repr

/-- `main` (source lines 189-260): directory check (line 206), then the
tool check (line 211), then the temporary workspace (line 215), then the
sequential batch loop accumulating the two counters (lines 236-240), and
exit code 0 on every completed run. -/
def mainRun (env : MainEnv) : MainOutcome :=
  if env.dirExists = false then
    ⟨1, false, false, 0, 0, 0⟩
  else if env.toolsMissing = true then
    ⟨1, true, false, 0, 0, 0⟩
  else
    ⟨0, true, true,
      env.files.countP (fun e => (convert_avi_to_mp4 e env.removeFlag).success),
      env.files.countP (fun e => !(convert_avi_to_mp4 e env.removeFlag).success),
      env.files.length⟩

/-- Positive direction of the pattern semantics: any name of the shape
`stem ++ "." ++ ⟨case variant of avi⟩` matches. -/
theorem matchesAvi_of_shape (s : List Char) (a v i : Char)
    (ha : a = 'a' ∨ a = 'A') (hv : v = 'v' ∨ v = 'V')
    (hi : i = 'i' ∨ i = 'I') :
    matchesAvi (s ++ ['.', a, v, i]) = true := by
  have hrev : (s ++ ['.', a, v, i]).reverse = i :: v :: a :: '.' :: s.reverse := by
    simp
  unfold matchesAvi
  rw [hrev]
  rcases ha with ha | ha <;> rcases hv with hv | hv <;> rcases hi with hi | hi <;>
    subst ha hv hi <;> rfl

/-- Negative direction: a matching name necessarily has the shape
`stem ++ "." ++ ⟨case variant of avi⟩`. -/
theorem shape_of_matchesAvi (name : List Char)
    (h : matchesAvi name = true) :
    ∃ s a v i, name = s ++ ['.', a, v, i] ∧ (a = 'a' ∨ a = 'A')
      ∧ (v = 'v' ∨ v = 'V') ∧ (i = 'i' ∨ i = 'I') := by
  unfold matchesAvi at h
  rcases hrev : name.reverse with _ | ⟨c3, _ | ⟨c2, _ | ⟨c1, _ | ⟨c0, rest⟩⟩⟩⟩ <;>
    rw [hrev] at h <;> try simp at h
  obtain ⟨⟨⟨h0, h1⟩, h2⟩, h3⟩ := h
  have hname : name = rest.reverse ++ [c0, c1, c2, c3] := by
    have := congrArg List.reverse hrev
    simpa using this
  subst h0
  exact ⟨rest.reverse, c1, c2, c3, hname, by simpa using h1, by simpa using h2,
    by simpa using h3⟩

theorem pyWithSuffix_eq_stem_append (name suffix : List Char) :
    pyWithSuffix name suffix = pyStem name ++ suffix := by
  unfold pyWithSuffix pySuffix pyStem
  cases h : rfindDot name with
  | none => simp
  | some i =>
    by_cases hcond : 0 < i ∧ i < name.length - 1
    · have hi : i ≤ name.length := by omega
      simp only [if_pos hcond]
      have hdrop : (name.drop i).length = name.length - i := by
        simp
      have hne : ¬ name.drop i = [] := by
        intro hnil
        rw [hnil] at hdrop
        simp at hdrop
        omega
      simp only [if_neg hne, hdrop]
      congr 1
      congr 1
      omega
    · simp [if_neg hcond]

/-- If the last three characters are not dots and the fourth-from-last is
a dot, the last dot sits exactly at index `s.length`. -/
theorem rfindDot_append_ext (s : List Char) (c1 c2 c3 : Char)
    (h1 : ¬ c1 = '.') (h2 : ¬ c2 = '.') (h3 : ¬ c3 = '.') :
    rfindDot (s ++ ['.', c1, c2, c3]) = some s.length := by
  unfold rfindDot
  have hrev : (s ++ ['.', c1, c2, c3]).reverse = c3 :: c2 :: c1 :: '.' :: s.reverse := by
    simp
  rw [hrev]
  have e1 : (c1 == '.') = false := by simpa using h1
  have e2 : (c2 == '.') = false := by simpa using h2
  have e3 : (c3 == '.') = false := by simpa using h3
  simp only [List.findIdx?_cons, e1, e2, e3]
  simp

theorem pyStem_append_of_ne (s : List Char) (c1 c2 c3 : Char) (hs : ¬ s = [])
    (h1 : ¬ c1 = '.') (h2 : ¬ c2 = '.') (h3 : ¬ c3 = '.') :
    pyStem (s ++ ['.', c1, c2, c3]) = s := by
  unfold pyStem
  rw [rfindDot_append_ext s c1 c2 c3 h1 h2 h3]
  have hpos : 0 < s.length := List.length_pos.mpr hs
  have hcond : 0 < s.length ∧ s.length < (s ++ ['.', c1, c2, c3]).length - 1 := by
    simp only [List.length_append, List.length_cons, List.length_nil]
    omega
  show (if 0 < s.length ∧ s.length < (s ++ ['.', c1, c2, c3]).length - 1 then
    List.take s.length (s ++ ['.', c1, c2, c3]) else s ++ ['.', c1, c2, c3]) = s
  rw [if_pos hcond]
  exact List.take_left s _

theorem pySuffix_append_of_ne (s : List Char) (c1 c2 c3 : Char) (hs : ¬ s = [])
    (h1 : ¬ c1 = '.') (h2 : ¬ c2 = '.') (h3 : ¬ c3 = '.') :
    pySuffix (s ++ ['.', c1, c2, c3]) = ['.', c1, c2, c3] := by
  unfold pySuffix
  rw [rfindDot_append_ext s c1 c2 c3 h1 h2 h3]
  have hpos : 0 < s.length := List.length_pos.mpr hs
  have hcond : 0 < s.length ∧ s.length < (s ++ ['.', c1, c2, c3]).length - 1 := by
    simp only [List.length_append, List.length_cons, List.length_nil]
    omega
  show (if 0 < s.length ∧ s.length < (s ++ ['.', c1, c2, c3]).length - 1 then
    List.drop s.length (s ++ ['.', c1, c2, c3]) else []) = ['.', c1, c2, c3]
  rw [if_pos hcond]
  exact List.drop_left s _

/-- On a name whose only structure is a leading dot plus three non-dot
characters (a hidden file such as `.avi`), `pathlib` reports no suffix,
so the stem is the whole name. -/
theorem pyStem_hidden (c1 c2 c3 : Char)
    (h1 : ¬ c1 = '.') (h2 : ¬ c2 = '.') (h3 : ¬ c3 = '.') :
    pyStem ['.', c1, c2, c3] = ['.', c1, c2, c3] := by
  unfold pyStem
  have h := rfindDot_append_ext [] c1 c2 c3 h1 h2 h3
  simp only [List.nil_append] at h
  rw [h]
  simp

/-- A discovered name never has an empty stem. -/
theorem pyStem_ne_nil_of_matches (name : List Char)
    (h : matchesAvi name = true) : ¬ pyStem name = [] := by
  obtain ⟨s, a, v, i, hn, ha, hv, hi⟩ := shape_of_matchesAvi name h
  have ha' : ¬ a = '.' := by rcases ha with h | h <;> subst h <;> decide
  have hv' : ¬ v = '.' := by rcases hv with h | h <;> subst h <;> decide
  have hi' : ¬ i = '.' := by rcases hi with h | h <;> subst h <;> decide
  subst hn
  by_cases hs : s = []
  · subst hs
    simp only [List.nil_append]
    rw [pyStem_hidden a v i ha' hv' hi']
    simp
  · rw [pyStem_append_of_ne s a v i hs ha' hv' hi']
    exact hs

theorem halfEvenRound_intCast (z : ℤ) : halfEvenRound ((z : ℚ)) = z := by
  simp only [halfEvenRound, Int.floor_intCast, sub_self]
  rw [if_pos (by norm_num : (0 : ℚ) < 1/2)]

theorem renderFixed2_int (q : ℚ) (z : ℤ) (h : q * 100 = (z : ℚ)) :
    renderFixed2 q = toString (z.toNat / 100) ++ "."
      ++ (if z.toNat % 100 < 10 then "0" else "") ++ toString (z.toNat % 100) := by
  unfold renderFixed2
  rw [h, halfEvenRound_intCast]

theorem countP_add_countP_not {α : Type} (p : α → Bool) (l : List α) :
    l.countP p + l.countP (fun a => !p a) = l.length := by
  induction l with
  | nil => rfl
  | cons x xs ih =>
    cases hx : p x <;> simp [List.countP_cons, hx] <;> omega

/-- C7: file discovery is recursive (a file at any directory depth is
subject only to its name) and matches exactly the names of shape
`stem ++ "." ++ ⟨per-character case variant of avi⟩`. -/
theorem c7_discovery_case_insensitive (tree : List PyPath) (p : PyPath) :
    (p ∈ find_avi_files tree ↔ p ∈ tree ∧ matchesAvi p.name = true)
    ∧ (matchesAvi p.name = true ↔ ∃ s a v i, p.name = s ++ ['.', a, v, i]
        ∧ (a = 'a' ∨ a = 'A') ∧ (v = 'v' ∨ v = 'V') ∧ (i = 'i' ∨ i = 'I')) := by
  refine ⟨List.mem_filter, ?_, ?_⟩
  · exact shape_of_matchesAvi p.name
  · rintro ⟨s, a, v, i, hn, ha, hv, hi⟩
    rw [hn]
    exact matchesAvi_of_shape s a v i ha hv hi

/-- C4: for every discovered input, the output path sits in the same
directory as the input, keeps the input's stem, and carries the `.mp4`
suffix — the input path with only its extension changed. -/
theorem c4_output_is_sibling_with_mp4_ext (tree : List PyPath) (p : PyPath)
    (hp : p ∈ find_avi_files tree) :
    (output_mp4 p).dir = p.dir
    ∧ pyStem (output_mp4 p).name = pyStem p.name
    ∧ pySuffix (output_mp4 p).name = ['.', 'm', 'p', '4'] := by
  have hmatch : matchesAvi p.name = true := (List.mem_filter.mp hp).2
  have hstem : ¬ pyStem p.name = [] := pyStem_ne_nil_of_matches p.name hmatch
  have hname : (output_mp4 p).name = pyStem p.name ++ ['.', 'm', 'p', '4'] :=
    pyWithSuffix_eq_stem_append p.name _
  refine ⟨rfl, ?_, ?_⟩
  · rw [hname]
    exact pyStem_append_of_ne _ 'm' 'p' '4' hstem (by decide) (by decide) (by decide)
  · rw [hname]
    exact pySuffix_append_of_ne _ 'm' 'p' '4' hstem (by decide) (by decide) (by decide)

/-- C4 witness: a concrete discovered file, `d/cam.avi`. -/
theorem c4_witness :
    (output_mp4 ⟨["d"], ['c', 'a', 'm', '.', 'a', 'v', 'i']⟩).dir = ["d"]
    ∧ pyStem (output_mp4 ⟨["d"], ['c', 'a', 'm', '.', 'a', 'v', 'i']⟩).name
        = pyStem ['c', 'a', 'm', '.', 'a', 'v', 'i']
    ∧ pySuffix (output_mp4 ⟨["d"], ['c', 'a', 'm', '.', 'a', 'v', 'i']⟩).name
        = ['.', 'm', 'p', '4'] :=
  c4_output_is_sibling_with_mp4_ext
    [⟨["d"], ['c', 'a', 'm', '.', 'a', 'v', 'i']⟩]
    ⟨["d"], ['c', 'a', 'm', '.', 'a', 'v', 'i']⟩ (by decide)

/-- C3 counterexample: `d1/a.avi` and `d2/a.avi` are both discoverable,
lie in different directories, share a basename — and their derived
intermediate paths are the SAME path in the temporary workspace, i.e.
they collide, contradicting the claim. -/
theorem c3_counterexample :
    matchesAvi ['a', '.', 'a', 'v', 'i'] = true
    ∧ (["d1"] : List String) ≠ ["d2"]
    ∧ temp_h264 ["tmp"] ⟨["d1"], ['a', '.', 'a', 'v', 'i']⟩
        = temp_h264 ["tmp"] ⟨["d2"], ['a', '.', 'a', 'v', 'i']⟩ := by
  refine ⟨by decide, by decide, ?_⟩
  rfl

/-- C3 amended: the intermediate path always lies directly beneath the
temporary workspace (so never beside the source), but two inputs derive
the same intermediate path exactly when their stems coincide — inputs
with repeated basenames from different subdirectories DO collide. -/
theorem c3_temp_path_location (tempDir : List String) (p q : PyPath) :
    (temp_h264 tempDir p).dir = tempDir
    ∧ (temp_h264 tempDir p = temp_h264 tempDir q ↔ pyStem p.name = pyStem q.name) := by
  refine ⟨rfl, ?_, ?_⟩
  · intro h
    have hn := congrArg PyPath.name h
    simpa [temp_h264] using hn
  · intro h
    simp [temp_h264, h]

/-- C2: the byte-size formatter maps 0 to "0.00 B", 1536 to "1.50 KB",
1572864 to "1.50 MB" (dividing by 1024 per unit step with two decimal
places), and every value at least 1024³ is rendered with the terminal
unit "GB" applied to the value divided by 1024³, never escalating
further. -/
theorem c2_format_file_size :
    format_file_size 0 = "0.00 B"
    ∧ format_file_size 1536 = "1.50 KB"
    ∧ format_file_size 1572864 = "1.50 MB"
    ∧ ∀ n : ℕ, 1024 ^ 3 ≤ n →
        format_file_size (n : ℚ) = renderFixed2 ((n : ℚ) / 1024 ^ 3) ++ " GB" := by
  refine ⟨?_, ?_, ?_, ?_⟩
  · unfold format_file_size
    simp only [fmtLoop]
    rw [if_pos (Or.inl (by norm_num : (0 : ℚ) < 1024))]
    rw [renderFixed2_int 0 0 (by norm_num)]
    rfl
  · unfold format_file_size
    simp only [fmtLoop]
    have hB : ¬((1536 : ℚ) < 1024 ∨ ("B" : String) = "GB") := by
      rintro (h | h)
      · norm_num at h
      · exact absurd h (by decide)
    rw [if_neg hB]
    rw [if_pos (Or.inl (by norm_num : (1536 : ℚ)/1024 < 1024))]
    rw [renderFixed2_int ((1536 : ℚ)/1024) 150 (by norm_num)]
    rfl
  · unfold format_file_size
    simp only [fmtLoop]
    have hB : ¬((1572864 : ℚ) < 1024 ∨ ("B" : String) = "GB") := by
      rintro (h | h)
      · norm_num at h
      · exact absurd h (by decide)
    have hKB : ¬((1572864 : ℚ)/1024 < 1024 ∨ ("KB" : String) = "GB") := by
      rintro (h | h)
      · norm_num at h
      · exact absurd h (by decide)
    rw [if_neg hB, if_neg hKB]
    rw [if_pos (Or.inl (by norm_num : (1572864 : ℚ)/1024/1024 < 1024))]
    rw [renderFixed2_int ((1572864 : ℚ)/1024/1024) 150 (by norm_num)]
    rfl
  · intro n hn
    have hn' : (1073741824 : ℚ) ≤ (n : ℚ) := by
      have := hn
      norm_num at this
      exact_mod_cast this
    unfold format_file_size
    simp only [fmtLoop]
    have hB : ¬((n : ℚ) < 1024 ∨ ("B" : String) = "GB") := by
      rintro (h | h)
      · linarith
      · exact absurd h (by decide)
    have hKB : ¬((n : ℚ)/1024 < 1024 ∨ ("KB" : String) = "GB") := by
      rintro (h | h)
      · rw [div_lt_iff₀ (by norm_num : (0 : ℚ) < 1024)] at h
        linarith
      · exact absurd h (by decide)
    have hMB : ¬((n : ℚ)/1024/1024 < 1024 ∨ ("MB" : String) = "GB") := by
      rintro (h | h)
      · rw [div_div, div_lt_iff₀ (by norm_num : (0 : ℚ) < 1024*1024)] at h
        linarith
      · exact absurd h (by decide)
    rw [if_neg hB, if_neg hKB, if_neg hMB]
    rw [if_pos (Or.inr trivial : (n : ℚ)/1024/1024/1024 < 1024 ∨ True)]
    have hX : (n : ℚ)/1024/1024/1024 = (n : ℚ)/1024^3 := by
      rw [div_div, div_div]
      norm_num
    rw [hX, String.append_assoc]
    rfl

/-- C2 witness: the general GB clause applied at the concrete boundary
value 1024³. -/
theorem c2_witness :
    format_file_size ((1073741824 : ℕ) : ℚ)
      = renderFixed2 (((1073741824 : ℕ) : ℚ) / 1024 ^ 3) ++ " GB" :=
  c2_format_file_size.2.2.2 1073741824 (by norm_num)

/-- C1: whenever a conversion succeeds, the output file exists; with the
deletion flag set, the original no longer exists afterwards, and with it
unset, the original still exists. -/
theorem c1_deletion_flag (env : ConvEnv) (flag : Bool)
    (h : (convert_avi_to_mp4 env flag).success = true) :
    (convert_avi_to_mp4 env flag).outputExists = true
    ∧ (flag = true → (convert_avi_to_mp4 env flag).originalExists = false)
    ∧ (flag = false → (convert_avi_to_mp4 env flag).originalExists = true) := by
  obtain ⟨aR, aC, aT, bR, bC, bO, vR, rR⟩ := env
  by_cases haC : aC = 0 <;> by_cases hbC : bC = 0 <;>
    cases aR <;> cases aT <;> cases bR <;> cases bO <;> cases vR <;> cases rR <;>
    cases flag <;>
    simp_all [convert_avi_to_mp4, convertRun]

/-- C1 witness: a fully successful environment with the flag enabled. -/
theorem c1_witness :
    (convert_avi_to_mp4 ⟨false, 0, true, false, 0, true, false, false⟩ true).outputExists = true
    ∧ (true = true →
        (convert_avi_to_mp4 ⟨false, 0, true, false, 0, true, false, false⟩ true).originalExists = false)
    ∧ (true = false →
        (convert_avi_to_mp4 ⟨false, 0, true, false, 0, true, false, false⟩ true).originalExists = true) :=
  c1_deletion_flag ⟨false, 0, true, false, 0, true, false, false⟩ true (by decide)

/-- C5: when the extraction step fails (exception, non-zero exit, or no
intermediate file), tool B is never invoked, the runner returns failure,
and a batch containing that file counts it as failed, not successful. -/
theorem c5_toolA_failure_short_circuits (env : ConvEnv) (flag : Bool)
    (h : toolAFails env) :
    (convert_avi_to_mp4 env flag).invokedB = false
    ∧ (convert_avi_to_mp4 env flag).success = false
    ∧ (mainRun ⟨true, false, [env], flag⟩).successful = 0
    ∧ (mainRun ⟨true, false, [env], flag⟩).failed = 1 := by
  obtain ⟨aR, aC, aT, bR, bC, bO, vR, rR⟩ := env
  simp only [toolAFails] at h
  have hconv : convert_avi_to_mp4 ⟨aR, aC, aT, bR, bC, bO, vR, rR⟩ flag
      = ⟨false, false, false, true⟩ := by
    rcases h with h | h | h <;> cases aR <;>
      simp_all [convert_avi_to_mp4, convertRun]
  refine ⟨by rw [hconv], by rw [hconv], ?_, ?_⟩ <;>
    simp [mainRun, hconv, List.countP_cons]

/-- C5 witness: tool A exits with code 1. -/
theorem c5_witness :
    (convert_avi_to_mp4 ⟨false, 1, true, false, 0, true, false, false⟩ false).invokedB = false
    ∧ (convert_avi_to_mp4 ⟨false, 1, true, false, 0, true, false, false⟩ false).success = false
    ∧ (mainRun ⟨true, false, [⟨false, 1, true, false, 0, true, false, false⟩], false⟩).successful = 0
    ∧ (mainRun ⟨true, false, [⟨false, 1, true, false, 0, true, false, false⟩], false⟩).failed = 1 :=
  c5_toolA_failure_short_circuits ⟨false, 1, true, false, 0, true, false, false⟩ false
    (Or.inr (Or.inl (by decide)))

/-- C6: the exit code is 0 exactly when the target directory exists and
no required tool is missing (no matter the per-file outcomes or an empty
discovery set), and 1 exactly when the directory is missing or a tool
is. -/
theorem c6_exit_codes (env : MainEnv) :
    ((mainRun env).exitCode = 0 ↔ env.dirExists = true ∧ env.toolsMissing = false)
    ∧ ((mainRun env).exitCode = 1 ↔ env.dirExists = false ∨ env.toolsMissing = true) := by
  obtain ⟨d, m, files, flag⟩ := env
  cases d <;> cases m <;> simp [mainRun]

/-- C8: the conversion runner never lets an exception escape — the run
always yields a returned outcome, and if either tool invocation raised,
that outcome is failure. -/
theorem c8_exceptions_contained (env : ConvEnv) (flag : Bool) :
    ∃ o, convertRun env flag = Except.ok o
      ∧ ((env.aRaises = true ∨ env.bRaises = true) → o.success = false) := by
  obtain ⟨aR, aC, aT, bR, bC, bO, vR, rR⟩ := env
  by_cases haC : aC = 0 <;> by_cases hbC : bC = 0 <;>
    cases aR <;> cases aT <;> cases bR <;> cases bO <;> cases vR <;> cases rR <;>
    cases flag <;>
    simp_all [convertRun]

/-- C8 witness: mplayer raises; the runner still returns, with failure. -/
theorem c8_witness :
    ∃ o, convertRun ⟨true, 0, false, false, 0, false, false, false⟩ true = Except.ok o
      ∧ o.success = false := by
  obtain ⟨o, h1, h2⟩ :=
    c8_exceptions_contained ⟨true, 0, false, false, 0, false, false, false⟩ true
  exact ⟨o, h1, h2 (Or.inl rfl)⟩

/-- C9: with a missing target directory the program exits 1, never
creates the temporary workspace and never performs the tool check. -/
theorem c9_missing_dir (env : MainEnv) (h : env.dirExists = false) :
    (mainRun env).exitCode = 1
    ∧ (mainRun env).tempDirCreated = false
    ∧ (mainRun env).toolCheckPerformed = false := by
  simp [mainRun, h]

/-- C9 witness. -/
theorem c9_witness :
    (mainRun ⟨false, false, [], false⟩).exitCode = 1
    ∧ (mainRun ⟨false, false, [], false⟩).tempDirCreated = false
    ∧ (mainRun ⟨false, false, [], false⟩).toolCheckPerformed = false :=
  c9_missing_dir ⟨false, false, [], false⟩ rfl

/-- C10: after the batch loop over a non-empty discovery set, the success
and failure counters sum to the number of discovered files, and the
summary's reported total is that same number. -/
theorem c10_counters_sum (env : MainEnv) (hd : env.dirExists = true)
    (hm : env.toolsMissing = false) (hne : ¬ env.files = []) :
    (mainRun env).successful + (mainRun env).failed = env.files.length
    ∧ (mainRun env).reportedTotal = env.files.length := by
  obtain ⟨d, m, files, flag⟩ := env
  subst hd hm
  exact ⟨countP_add_countP_not _ files, rfl⟩

/-- C10 witness: a singleton discovery set. -/
theorem c10_witness :
    (mainRun ⟨true, false, [⟨false, 0, true, false, 0, true, false, false⟩], false⟩).successful
      + (mainRun ⟨true, false, [⟨false, 0, true, false, 0, true, false, false⟩], false⟩).failed
      = 1
    ∧ (mainRun ⟨true, false, [⟨false, 0, true, false, 0, true, false, false⟩], false⟩).reportedTotal
      = 1 :=
  c10_counters_sum ⟨true, false, [⟨false, 0, true, false, 0, true, false, false⟩], false⟩
    rfl rfl (by decide)

end AviConv
